import Mathlib

/-!
Shallow embedding of the ledger posting engine and import pipeline of the
personal-finance repository (TypeScript sources under `src/`):

* `src/entities/Account.ts`, `src/entities/Transaction.ts`,
  `src/entities/Category.ts` — data model (persistence-only columns such as
  timestamps, the puppeteer credential fields and `originalData` are omitted:
  no operation modelled here reads or writes them);
* `TransactionService` (`src/services/TransactionService.ts`) — the posting
  engine: `createTransaction`, `updateTransaction`, `deleteTransaction`,
  `bulkUpdateTransactions`, `updateAccountBalances`, `getAccountBalance`;
* `ImportService` (`src/services/ImportService.ts`) — `importTransactions`,
  `parseDate`, `getOrCreateExpenseAccount`, `getOrCreateIncomeAccount`,
  `getOrCreateCategory`;
* `parseQif` (`src/utils/fileParser.ts`) together with a model of
  JavaScript `parseFloat` restricted to sign/digits/fraction prefixes (the
  exponent, infinity and whitespace-skipping cases of `parseFloat` are not
  exercised by any input considered here);
* the equal-accounts validation of the `POST /api/transactions` route
  handler (`src/routes/transactions.ts`).

Monetary amounts and balances (SQL `decimal(12,2)` columns) are fixed-point
values on the hundredths grid; the posting engine only ever adds and
subtracts them, so the grid is closed under every modelled operation and
the amounts are embedded as scaled integers (`Int`).  Only the `parseFloat`
model, whose result can be an arbitrary decimal, uses `ℚ`.  Primary keys
are naturals handed out by per-table counters, mirroring auto-increment
columns.  The database state is one
`LedgerState` value; each service method is a pure function on it, with
thrown errors modelled by `Except`.
-/

/-- `AccountType` enum of `src/entities/Account.ts`. -/
inductive AccountType where
  | asset_bank
  | asset_investment
  | asset_cash
  | liability_credit_card
  | liability_loan
  | income
  | expense
deriving DecidableEq

/-- `CategoryType` enum of `src/entities/Category.ts`. -/
inductive CategoryType where
  | income
  | expense
  | transfer
deriving DecidableEq

/-- `TransactionStatus` enum of `src/entities/Transaction.ts`. -/
inductive TransactionStatus where
  | pending
  | cleared
  | reconciled
deriving DecidableEq

/-- A JavaScript `Date` value as constructed by the code under study: either
`new Date(year, monthIndex, day)` with the raw (possibly out-of-range)
constructor arguments recorded, or the fallback `new Date(string)`. -/
inductive JsDate where
  | ymd (year monthIndex day : Int)
  | fromString (s : String)
deriving DecidableEq

/-- `Account` entity (claim-relevant columns).  `balance` has SQL default 0,
`description` is nullable. -/
structure Account where
  id : Nat
  name : String
  type : AccountType
  description : Option String := none
  balance : Int := 0
deriving DecidableEq

/-- `Category` entity (claim-relevant columns). -/
structure Category where
  id : Nat
  name : String
  type : CategoryType
  description : Option String := none
deriving DecidableEq

/-- `Transaction` entity (claim-relevant columns). -/
structure Transaction where
  id : Nat
  date : JsDate
  amount : Int
  description : String
  reference : Option String := none
  status : TransactionStatus
  notes : Option String := none
  debitAccountId : Nat
  creditAccountId : Nat
  categoryId : Option Nat := none
deriving DecidableEq

/-- The argument record of `TransactionService.createTransaction`. -/
structure TxData where
  date : JsDate
  amount : Int
  description : String
  debitAccountId : Nat
  creditAccountId : Nat
  categoryId : Option Nat := none
  reference : Option String := none
  notes : Option String := none
deriving DecidableEq

/-- A `Partial<Transaction>` patch: `some v` means the field is present in
the patch object.  The primary key is not patchable in the model; no caller
in the repository patches it. -/
structure TxPatch where
  date : Option JsDate := none
  amount : Option Int := none
  description : Option String := none
  reference : Option String := none
  status : Option TransactionStatus := none
  notes : Option String := none
  debitAccountId : Option Nat := none
  creditAccountId : Option Nat := none
  categoryId : Option Nat := none
deriving DecidableEq

/-- The persistent store: the three tables plus auto-increment counters. -/
structure LedgerState where
  accounts : List Account
  categories : List Category
  transactions : List Transaction
  nextAccountId : Nat
  nextCategoryId : Nat
  nextTxId : Nat
deriving DecidableEq

/-- `accountRepository.findOneBy({ id })`. -/
def findAccount (st : LedgerState) (accountId : Nat) : Option Account :=
  st.accounts.find? (fun a => a.id = accountId)

/-- `transactionRepository.findOneBy({ id })`. -/
def findTransaction (st : LedgerState) (txId : Nat) : Option Transaction :=
  st.transactions.find? (fun t => t.id = txId)

/-- `TransactionService.updateAccountBalances`: atomically increment the
debit account balance by `amount` and decrement the credit account balance
by `amount` (`accountRepository.increment` / `.decrement`; a missing id
matches no row and is a no-op, as in SQL `UPDATE ... WHERE id = ?`). -/
def updateAccountBalances (st : LedgerState) (debitAccountId creditAccountId : Nat)
    (amount : Int) : LedgerState :=
  { st with accounts :=
      ((st.accounts.map (fun a =>
        if a.id = debitAccountId then { a with balance := a.balance + amount } else a)).map
        (fun a =>
          if a.id = creditAccountId then { a with balance := a.balance - amount } else a)) }

/-- The row inserted by `createTransaction`: the posted data with a fresh
primary key and status `pending`. -/
def newTransaction (st : LedgerState) (transactionData : TxData) : Transaction :=
  { id := st.nextTxId
    date := transactionData.date
    amount := transactionData.amount
    description := transactionData.description
    reference := transactionData.reference
    status := TransactionStatus.pending
    notes := transactionData.notes
    debitAccountId := transactionData.debitAccountId
    creditAccountId := transactionData.creditAccountId
    categoryId := transactionData.categoryId }

/-- `TransactionService.createTransaction`: validate that both accounts
exist, insert the row with status `pending` and a fresh id, then post the
balance changes. -/
def createTransaction (st : LedgerState) (transactionData : TxData) :
    Except String (Transaction × LedgerState) :=
  if (findAccount st transactionData.debitAccountId).isNone ∨
      (findAccount st transactionData.creditAccountId).isNone then
    .error "One or both accounts not found"
  else
    .ok (newTransaction st transactionData,
      updateAccountBalances
        { st with transactions := st.transactions ++ [newTransaction st transactionData],
                  nextTxId := st.nextTxId + 1 }
        transactionData.debitAccountId transactionData.creditAccountId
        transactionData.amount)

/-- `Object.assign(transaction, updates)`. -/
def applyPatch (t : Transaction) (p : TxPatch) : Transaction :=
  { t with
    date := p.date.getD t.date
    amount := p.amount.getD t.amount
    description := p.description.getD t.description
    reference := (p.reference.map some).getD t.reference
    status := p.status.getD t.status
    notes := (p.notes.map some).getD t.notes
    debitAccountId := p.debitAccountId.getD t.debitAccountId
    creditAccountId := p.creditAccountId.getD t.creditAccountId
    categoryId := (p.categoryId.map some).getD t.categoryId }

/-- The balance phase of `updateTransaction`: when the patch touches
amount, `debitAccountId` or `creditAccountId`, reverse the old posting
(stored account ids, negated stored amount) and apply the new one built
with `??`-fallbacks to the stored values; otherwise leave balances alone. -/
def updateBalancePhase (st : LedgerState) (transaction : Transaction)
    (updates : TxPatch) : LedgerState :=
  if updates.amount.isSome ∨ updates.debitAccountId.isSome ∨
      updates.creditAccountId.isSome then
    updateAccountBalances
      (updateAccountBalances st transaction.debitAccountId
        transaction.creditAccountId (-transaction.amount))
      (updates.debitAccountId.getD transaction.debitAccountId)
      (updates.creditAccountId.getD transaction.creditAccountId)
      (updates.amount.getD transaction.amount)
  else st

/-- `TransactionService.updateTransaction`: look up the row (throwing
"Transaction not found"), run the balance phase, then `Object.assign` the
patch onto the row and save it. -/
def updateTransaction (st : LedgerState) (id : Nat) (updates : TxPatch) :
    Except String (Transaction × LedgerState) :=
  match findTransaction st id with
  | none => .error "Transaction not found"
  | some transaction =>
    .ok (applyPatch transaction updates,
      { updateBalancePhase st transaction updates with
        transactions := (updateBalancePhase st transaction updates).transactions.map
          fun t => if t.id = id then applyPatch transaction updates else t })

/-- `TransactionService.deleteTransaction`: reverse the posting, then remove
the row. -/
def deleteTransaction (st : LedgerState) (id : Nat) : Except String LedgerState :=
  match findTransaction st id with
  | none => .error "Transaction not found"
  | some transaction =>
    .ok { updateAccountBalances st transaction.debitAccountId
            transaction.creditAccountId (-transaction.amount) with
          transactions :=
            (updateAccountBalances st transaction.debitAccountId
              transaction.creditAccountId (-transaction.amount)).transactions.filter
              fun t => ¬ t.id = id }

/-- `TransactionService.bulkUpdateTransactions`: a single
`repository.update(ids, updates)` — the patch is written verbatim onto every
matching row and nothing else is touched. -/
def bulkUpdateTransactions (st : LedgerState) (ids : List Nat) (updates : TxPatch) :
    LedgerState :=
  { st with transactions :=
      st.transactions.map fun t => if t.id ∈ ids then applyPatch t updates else t }

/-- `TransactionService.getAccountBalance`: `account?.balance || 0` (for a
numeric column `x || 0` equals `x` when `x` is nonzero and `0` otherwise,
hence equals `x`; a missing account yields 0). -/
def getAccountBalance (st : LedgerState) (accountId : Nat) : Int :=
  match findAccount st accountId with
  | some account => account.balance
  | none => 0

/-- The equal-accounts validation of the `POST /api/transactions` route
handler, composed with the service call.  The handler first rejects
JS-falsy required fields (modelled for the fields that can be falsy in a
well-typed request: zero amount, empty description, a zero account id),
then rejects `debitAccountId === creditAccountId`, and only then calls
`TransactionService.createTransaction`. -/
def createTransactionRoute (st : LedgerState) (data : TxData) :
    Except String (Transaction × LedgerState) :=
  if data.amount = 0 ∨ data.description = "" ∨ data.debitAccountId = 0 ∨
      data.creditAccountId = 0 then
    .error "Date, amount, description, debit account, and credit account are required"
  else if data.debitAccountId = data.creditAccountId then
    .error "Debit and credit accounts must be different"
  else createTransaction st data

/-- The state after the route handler runs: an error response leaves the
store untouched. -/
def applyRouteCreate (st : LedgerState) (data : TxData) : LedgerState :=
  match createTransactionRoute st data with
  | .ok (_, st1) => st1
  | .error _ => st

/-- Leading decimal digits of a character list: their value, how many there
are, and the rest. -/
def readDigits : List Char → Nat × Nat × List Char
  | [] => (0, 0, [])
  | c :: cs =>
    if c.isDigit then
      let (v, n, rest) := readDigits cs
      -- digits accumulate most-significant-first; recompute positionally
      (c.toNat - 48) * 10 ^ n + v |> fun v1 => (v1, n + 1, rest)
    else (0, 0, c :: cs)

/-- JavaScript `parseFloat`, restricted to an optional sign followed by
digits with an optional fractional part (`none` models `NaN`).  Leading
whitespace, exponents and `Infinity` are not modelled: no input considered
in this development contains them. -/
def parseFloat (s : String) : Option ℚ :=
  let cs := s.toList
  let (sign, cs1) : ℚ × List Char :=
    match cs with
    | '-' :: rest => (-1, rest)
    | '+' :: rest => (1, rest)
    | _ => (1, cs)
  let (ip, n1, cs2) := readDigits cs1
  let (fp, n2) : Nat × Nat :=
    match cs2 with
    | '.' :: rest => let (v, n, _) := readDigits rest; (v, n)
    | _ => (0, 0)
  if n1 = 0 ∧ n2 = 0 then none
  else some (sign * ((ip : ℚ) + (fp : ℚ) / (10 : ℚ) ^ n2))

/-- `String.prototype.split` on a single separator character
(`"a^b^".split('^')` is `["a", "b", ""]`). -/
def splitOnChar (sep : Char) : List Char → List (List Char)
  | [] => [[]]
  | c :: cs =>
    if c = sep then [] :: splitOnChar sep cs
    else
      match splitOnChar sep cs with
      | [] => [[c]]
      | grp :: grps => (c :: grp) :: grps

/-- `String.prototype.trim` on a character list. -/
def trimChars (cs : List Char) : List Char :=
  ((cs.dropWhile Char.isWhitespace).reverse.dropWhile Char.isWhitespace).reverse

/-- In-progress QIF record (`Partial<QifTransaction>`): the outer `Option`
on each field records whether the tag has been seen; for `amount` the inner
`Option` is the `parseFloat` result (`none` = `NaN`). -/
structure QifPartial where
  date : Option String := none
  amount : Option (Option ℚ) := none
  description : Option String := none
  category : Option String := none
  cleared : Option String := none
  reference : Option String := none
deriving DecidableEq

/-- One iteration of the tag-line loop body of `parseQif`. -/
def qifApplyLine (acc : QifPartial) (line : List Char) : QifPartial :=
  if trimChars line = [] then acc
  else
    let code := line.headD ' '
    let value : String := ⟨trimChars (line.drop 1)⟩
    if code = 'D' then { acc with date := some value }
    else if code = 'T' then { acc with amount := some (parseFloat value) }
    else if code = 'P' ∨ code = 'M' then
      { acc with description :=
          match acc.description with
          | some d => if d = "" then some value else some (d ++ " - " ++ value)
          | none => some value }
    else if code = 'L' then { acc with category := some value }
    else if code = 'C' then { acc with cleared := some value }
    else if code = 'N' then { acc with reference := some value }
    else acc

/-- `parseQif` of `src/utils/fileParser.ts`: split on `'^'`, drop blank
entries, fold the tag lines of each entry, and keep records whose date is
set and truthy and whose amount field was assigned (a `NaN` amount was
still assigned, hence kept, exactly as `!== undefined` behaves). -/
def parseQif (qifContent : String) : List QifPartial :=
  let entries := (splitOnChar '^' qifContent.toList).filter
    (fun entry => ¬ trimChars entry = [])
  (entries.map fun entry =>
    (splitOnChar '\n' (trimChars entry)).foldl qifApplyLine {}).filter
    fun t => (match t.date with | some d => !(d == "") | none => false) &&
      t.amount.isSome

/-- Try to read between `lo` and `hi` digits at the head of `cs`, preferring
the longest (greedy with backtracking), such that the continuation `k`
succeeds on the remainder.  This is exactly how a backtracking regex engine
treats a group like `(\d{1,2})` followed by more pattern. -/
def tryDigits (α : Type) (lo hi : Nat) (cs : List Char)
    (k : List Char → List Char → Option α) : Option α :=
  (List.range (hi - lo + 1)).foldl
    (fun acc i =>
      match acc with
      | some r => some r
      | none =>
        let n := hi - i
        let grp := cs.take n
        if grp.length = n ∧ n ≥ lo ∧ grp.all Char.isDigit then k grp (cs.drop n)
        else none)
    none

/-- Match `(\d{1,2})sep(\d{1,2})sep(\d{2,4})` anchored at the head of the
list (the first two date regexes of `ImportService.parseDate`, with `sep`
being `/` or `-`). -/
def matchSepPatternAt (sep : Char) (cs : List Char) :
    Option (List Char × List Char × List Char) :=
  tryDigits _ 1 2 cs fun g1 rest1 =>
    match rest1 with
    | c :: rest2 =>
      if c = sep then
        tryDigits _ 1 2 rest2 fun g2 rest3 =>
          match rest3 with
          | c2 :: rest4 =>
            if c2 = sep then
              tryDigits _ 2 4 rest4 fun g3 _ => some (g1, g2, g3)
            else none
          | [] => none
      else none
    | [] => none

/-- Match `(\d{4})-(\d{1,2})-(\d{1,2})` anchored at the head of the list
(the third date regex of `ImportService.parseDate`). -/
def matchYmdPatternAt (cs : List Char) : Option (List Char × List Char × List Char) :=
  tryDigits _ 4 4 cs fun g1 rest1 =>
    match rest1 with
    | c :: rest2 =>
      if c = '-' then
        tryDigits _ 1 2 rest2 fun g2 rest3 =>
          match rest3 with
          | c2 :: rest4 =>
            if c2 = '-' then
              tryDigits _ 1 2 rest4 fun g3 _ => some (g1, g2, g3)
            else none
          | [] => none
      else none
    | [] => none

/-- Leftmost-match semantics of an unanchored JS regex: try each start
position from the left. -/
def findMatch (matchAt : List Char → Option (List Char × List Char × List Char)) :
    List Char → Option (List Char × List Char × List Char)
  | [] => matchAt []
  | c :: cs =>
    match matchAt (c :: cs) with
    | some r => some r
    | none => findMatch matchAt cs

/-- `parseInt` on a nonempty all-digit capture group. -/
def parseIntDigits (g : List Char) : Int :=
  ((readDigits g).1 : Int)

/-- Build the date from the three capture groups as
`ImportService.parseDate` does: `year` from group 3, `month` from group 1,
`day` from group 2, two-digit-year windowing, the month/day swap only for
the third (`YYYY-MM-DD`) pattern, then `new Date(year, month - 1, day)`. -/
def mkParsedDate (g1 g2 g3 : List Char) (swap : Bool) : JsDate :=
  let year0 := parseIntDigits g3
  let month0 := parseIntDigits g1
  let day0 := parseIntDigits g2
  let year := if year0 < 100 then (if year0 < 50 then year0 + 2000 else year0 + 1900)
    else year0
  let month := if swap then day0 else month0
  let day := if swap then month0 else day0
  JsDate.ymd year (month - 1) day

/-- `ImportService.parseDate`: the three regexes are tried in order with
JavaScript `String.match` (leftmost, unanchored, backtracking) semantics;
if none matches, fall back to `new Date(dateString)`. -/
def parseDate (dateString : String) : JsDate :=
  let cs := dateString.toList
  match findMatch (matchSepPatternAt '/') cs with
  | some (g1, g2, g3) => mkParsedDate g1 g2 g3 false
  | none =>
    match findMatch (matchSepPatternAt '-') cs with
    | some (g1, g2, g3) => mkParsedDate g1 g2 g3 false
    | none =>
      match findMatch matchYmdPatternAt cs with
      | some (g1, g2, g3) => mkParsedDate g1 g2 g3 true
      | none => JsDate.fromString dateString

/-- JS `Date` month normalization for a non-negative month index: the
calendar year and 1-based month denoted by `new Date(year, monthIndex, _)`. -/
def normalizedYearMonth (year monthIndex : Int) : Int × Int :=
  (year + monthIndex / 12, monthIndex % 12 + 1)

/-- A normalized import candidate as produced by the preview engines
(`originalIndex`, parsed `date`, absolute `amount`, `isDebit` flag, and the
optional category/reference labels). -/
structure Candidate where
  originalIndex : Nat
  date : JsDate
  amount : Int
  description : String
  reference : Option String := none
  category : Option String := none
  isDebit : Bool
deriving DecidableEq

/-- `ImportService.getOrCreateExpenseAccount`: name
`` `Expenses${categoryName ? ` - ${categoryName}` : ''}` `` (an empty label
is falsy), find by exact (name, type) pair, create on miss with the SQL
defaults (balance 0). -/
def getOrCreateExpenseAccount (st : LedgerState) (categoryName : Option String) :
    Nat × LedgerState :=
  let accountName := "Expenses" ++
    (match categoryName with
     | some n => if n = "" then "" else " - " ++ n
     | none => "")
  match st.accounts.find? (fun a => a.name = accountName ∧ a.type = AccountType.expense) with
  | some account => (account.id, st)
  | none =>
    let account : Account :=
      { id := st.nextAccountId
        name := accountName
        type := AccountType.expense
        description := some ("Auto-created expense account for " ++
          (match categoryName with
           | some n => if n = "" then "general expenses" else n
           | none => "general expenses"))
        balance := 0 }
    (account.id,
      { st with accounts := st.accounts ++ [account],
                nextAccountId := st.nextAccountId + 1 })

/-- `ImportService.getOrCreateIncomeAccount`: the income twin of
`getOrCreateExpenseAccount`. -/
def getOrCreateIncomeAccount (st : LedgerState) (categoryName : Option String) :
    Nat × LedgerState :=
  let accountName := "Income" ++
    (match categoryName with
     | some n => if n = "" then "" else " - " ++ n
     | none => "")
  match st.accounts.find? (fun a => a.name = accountName ∧ a.type = AccountType.income) with
  | some account => (account.id, st)
  | none =>
    let account : Account :=
      { id := st.nextAccountId
        name := accountName
        type := AccountType.income
        description := some ("Auto-created income account for " ++
          (match categoryName with
           | some n => if n = "" then "general income" else n
           | none => "general income"))
        balance := 0 }
    (account.id,
      { st with accounts := st.accounts ++ [account],
                nextAccountId := st.nextAccountId + 1 })

/-- `ImportService.getOrCreateCategory`: find by exact (name, type), create
on miss. -/
def getOrCreateCategory (st : LedgerState) (categoryName : String) (type : CategoryType) :
    Nat × LedgerState :=
  match st.categories.find? (fun c => c.name = categoryName ∧ c.type = type) with
  | some category => (category.id, st)
  | none =>
    let category : Category :=
      { id := st.nextCategoryId
        name := categoryName
        type := type
        description := some "Auto-created from import" }
    (category.id,
      { st with categories := st.categories ++ [category],
                nextCategoryId := st.nextCategoryId + 1 })

/-- The row-indexed error message format of the import loop:
`` `Row ${transaction.originalIndex + 1}: ${message}` ``. -/
def rowError (originalIndex : Nat) (message : String) : String :=
  "Row " ++ toString (originalIndex + 1) ++ ": " ++ message

/-- Step 1 of the import loop body: pick the debit/credit account pair for
one candidate.  `isDebit` rows debit
`defaultDebitAccountId || getOrCreateExpenseAccount(category)` and credit
the target account; other rows debit the target account and credit
`defaultCreditAccountId || getOrCreateIncomeAccount(category)` (a zero
override id is JS-falsy and falls through to find-or-create). -/
def resolveImportAccounts (accountId : Nat) (defaultCreditAccountId
    defaultDebitAccountId : Option Nat) (st : LedgerState) (transaction : Candidate) :
    Nat × Nat × LedgerState :=
  if transaction.isDebit then
    match defaultDebitAccountId with
    | some d =>
      if d = 0 then
        let r := getOrCreateExpenseAccount st transaction.category
        (r.1, accountId, r.2)
      else (d, accountId, st)
    | none =>
      let r := getOrCreateExpenseAccount st transaction.category
      (r.1, accountId, r.2)
  else
    match defaultCreditAccountId with
    | some c =>
      if c = 0 then
        let r := getOrCreateIncomeAccount st transaction.category
        (accountId, r.1, r.2)
      else (accountId, c, st)
    | none =>
      let r := getOrCreateIncomeAccount st transaction.category
      (accountId, r.1, r.2)

/-- Step 2 of the import loop body:
`transaction.category ? getOrCreateCategory(...) : undefined` (an empty
label is falsy and yields `undefined`). -/
def resolveImportCategory (st : LedgerState) (transaction : Candidate) :
    Option Nat × LedgerState :=
  match transaction.category with
  | some name =>
    if name = "" then (none, st)
    else
      let r := getOrCreateCategory st name
        (if transaction.isDebit then CategoryType.expense else CategoryType.income)
      (some r.1, r.2)
  | none => (none, st)

/-- One iteration of the `for ... of preview.transactions` loop: resolve
accounts and category (side effects kept whatever happens next), then call
`createTransaction`.  The second component is the state holding the side
effects already performed for the row, which survives even when
`createTransaction` throws. -/
def importRow (batch : String) (accountId : Nat) (defaultCreditAccountId
    defaultDebitAccountId : Option Nat) (st : LedgerState) (transaction : Candidate) :
    Except String LedgerState × LedgerState :=
  let r1 := resolveImportAccounts accountId defaultCreditAccountId
    defaultDebitAccountId st transaction
  let r2 := resolveImportCategory r1.2.2 transaction
  (match createTransaction r2.2
    { date := transaction.date
      amount := transaction.amount
      description := transaction.description
      debitAccountId := r1.1
      creditAccountId := r1.2.1
      categoryId := r2.1
      reference := transaction.reference
      notes := some ("Imported from " ++ batch) } with
   | .ok (_, st4) => .ok st4
   | .error e => .error e, r2.2)

/-- The import loop: on success increment the count, on a thrown error push
a row-indexed message and continue with the remaining rows. -/
def importLoop (batch : String) (accountId : Nat) (defaultCreditAccountId
    defaultDebitAccountId : Option Nat) : LedgerState → List Candidate →
    Nat → List String → Nat × List String × LedgerState
  | st, [], successCount, errors => (successCount, errors, st)
  | st, transaction :: rest, successCount, errors =>
    match importRow batch accountId defaultCreditAccountId defaultDebitAccountId
      st transaction with
    | (.ok st4, _) =>
      importLoop batch accountId defaultCreditAccountId defaultDebitAccountId
        st4 rest (successCount + 1) errors
    | (.error e, st3) =>
      importLoop batch accountId defaultCreditAccountId defaultDebitAccountId
        st3 rest successCount (errors ++ [rowError transaction.originalIndex e])

/-- `ImportService.importTransactions`: check the target account up front
(hard error), then run the per-row loop.  `batch` is the
`` `import_${Date.now()}` `` tag fixed at the start of the run; the
prefetch of the override accounts in the source binds two variables that
are never read afterwards, so it has no observable effect and is elided. -/
def importTransactions (st : LedgerState) (candidates : List Candidate)
    (accountId : Nat) (defaultCreditAccountId defaultDebitAccountId : Option Nat)
    (batch : String) : Except String (Nat × List String × LedgerState) :=
  if (findAccount st accountId).isNone then .error "Target account not found"
  else .ok (importLoop batch accountId defaultCreditAccountId defaultDebitAccountId
    st candidates 0 [])

/-- Net effect of one stored transaction on the account with id `accId`:
`+amount` when it is the debit account, `-amount` when it is the credit
account (both, cancelling, when the two ids coincide). -/
def txDelta (t : Transaction) (accId : Nat) : Int :=
  (if t.debitAccountId = accId then t.amount else 0) -
    (if t.creditAccountId = accId then t.amount else 0)

/-- Sum of the amounts of the stored transactions whose debit account is
`accId`. -/
def debitSum (txs : List Transaction) (accId : Nat) : Int :=
  ((txs.filter fun t => t.debitAccountId = accId).map (fun t => t.amount)).sum

/-- Sum of the amounts of the stored transactions whose credit account is
`accId`. -/
def creditSum (txs : List Transaction) (accId : Nat) : Int :=
  ((txs.filter fun t => t.creditAccountId = accId).map (fun t => t.amount)).sum

/-- The posting sum of an account: debit-side total minus credit-side
total. -/
def postingSum (txs : List Transaction) (accId : Nat) : Int :=
  debitSum txs accId - creditSum txs accId

/-- Ledger consistency: every stored account's balance equals its posting
sum over the stored transactions. -/
def Consistent (st : LedgerState) : Prop :=
  ∀ a ∈ st.accounts, a.balance = postingSum st.transactions a.id

instance (st : LedgerState) : Decidable (Consistent st) := by
  unfold Consistent; infer_instance

/-- Database well-formedness: transaction primary keys are distinct and
below the auto-increment counter (what `PrimaryGeneratedColumn` guarantees). -/
def WF (st : LedgerState) : Prop :=
  (st.transactions.map fun t => t.id).Nodup ∧
    ∀ t ∈ st.transactions, t.id < st.nextTxId

instance (st : LedgerState) : Decidable (WF st) := by
  unfold WF; infer_instance

/-- One posting-engine request: the three single-row operations of
`TransactionService` quantified over in the invariant claim. -/
inductive PEOp where
  | create (data : TxData)
  | update (id : Nat) (updates : TxPatch)
  | delete (id : Nat)
deriving DecidableEq

/-- The store after serving one request; a thrown error leaves the store
untouched (each operation validates before its first write). -/
def applyOp (st : LedgerState) : PEOp → LedgerState
  | .create data =>
    match createTransaction st data with
    | .ok (_, st1) => st1
    | .error _ => st
  | .update id updates =>
    match updateTransaction st id updates with
    | .ok (_, st1) => st1
    | .error _ => st
  | .delete id =>
    match deleteTransaction st id with
    | .ok st1 => st1
    | .error _ => st

/-- The store after serving a sequence of requests in order. -/
def applyOps (st : LedgerState) (ops : List PEOp) : LedgerState :=
  ops.foldl applyOp st

/-! ### Helper lemmas -/

lemma list_map_congr_mem {α β : Type} {l : List α} {f g : α → β}
    (h : ∀ a ∈ l, f a = g a) : l.map f = l.map g := by
  induction l with
  | nil => rfl
  | cons x xs ih =>
    simp only [List.map_cons]
    rw [h x (List.mem_cons_self x xs), ih fun a ha => h a (List.mem_cons_of_mem x ha)]

/-- The per-row effect of `updateAccountBalances` on one account record. -/
def balAdj (d c : Nat) (amt : Int) (a : Account) : Account :=
  { a with balance := a.balance + (if a.id = d then amt else 0) -
      (if a.id = c then amt else 0) }

lemma balAdj_id (d c : Nat) (amt : Int) (a : Account) : (balAdj d c amt a).id = a.id := rfl

lemma updateAccountBalances_accounts (st : LedgerState) (d c : Nat) (amt : Int) :
    (updateAccountBalances st d c amt).accounts = st.accounts.map (balAdj d c amt) := by
  simp only [updateAccountBalances, List.map_map]
  refine list_map_congr_mem fun a _ => ?_
  dsimp only [Function.comp, balAdj]
  by_cases h1 : a.id = d
  · simp only [if_pos h1]
    by_cases h2 : a.id = c
    · simp only [if_pos h2]
    · simp only [if_neg h2, sub_zero]
  · simp only [if_neg h1, add_zero]
    by_cases h2 : a.id = c
    · simp only [if_pos h2]
    · simp only [if_neg h2, sub_zero]

lemma updateAccountBalances_transactions (st : LedgerState) (d c : Nat) (amt : Int) :
    (updateAccountBalances st d c amt).transactions = st.transactions := rfl

lemma find?_accounts_map {g : Account → Account} (hid : ∀ a, (g a).id = a.id)
    (x : Nat) : ∀ l : List Account,
    (l.map g).find? (fun a => a.id = x) = (l.find? (fun a => a.id = x)).map g
  | [] => rfl
  | a :: l => by
    by_cases h : a.id = x
    · rw [List.map_cons, List.find?_cons_of_pos _ (by simp [hid, h]),
        List.find?_cons_of_pos _ (by simp [h]), Option.map_some']
    · rw [List.map_cons, List.find?_cons_of_neg _ (by simp [hid, h]),
        List.find?_cons_of_neg _ (by simp [h]), find?_accounts_map hid x l]

lemma getAccountBalance_congr {st1 st2 : LedgerState}
    (h : st1.accounts = st2.accounts) (x : Nat) :
    getAccountBalance st1 x = getAccountBalance st2 x := by
  simp [getAccountBalance, findAccount, h]

lemma postingSum_nil (accId : Nat) : postingSum [] accId = 0 := by
  simp [postingSum, debitSum, creditSum]

lemma postingSum_cons (t : Transaction) (ts : List Transaction) (accId : Nat) :
    postingSum (t :: ts) accId = txDelta t accId + postingSum ts accId := by
  by_cases h1 : t.debitAccountId = accId <;> by_cases h2 : t.creditAccountId = accId <;>
    · simp [postingSum, debitSum, creditSum, txDelta, List.filter_cons, h1, h2]
      try ring

lemma postingSum_append (l1 l2 : List Transaction) (accId : Nat) :
    postingSum (l1 ++ l2) accId = postingSum l1 accId + postingSum l2 accId := by
  induction l1 with
  | nil => simp [postingSum_nil]
  | cons x xs ih =>
    rw [List.cons_append, postingSum_cons, postingSum_cons, ih]
    ring

lemma postingSum_replace {txs : List Transaction} {i : Nat} {tx tx1 : Transaction}
    (hnd : (txs.map fun t => t.id).Nodup)
    (hf : txs.find? (fun u => u.id = i) = some tx) (accId : Nat) :
    postingSum (txs.map fun u => if u.id = i then tx1 else u) accId =
      postingSum txs accId - txDelta tx accId + txDelta tx1 accId := by
  induction txs with
  | nil => simp at hf
  | cons x xs ih =>
    rw [List.map_cons, List.nodup_cons] at hnd
    by_cases hx : x.id = i
    · rw [List.find?_cons_of_pos _ (by simp [hx])] at hf
      obtain rfl : x = tx := Option.some.inj hf
      have htail : ∀ u ∈ xs, ¬ u.id = i := fun u hu h =>
        hnd.1 (by rw [← hx] at h; exact h ▸ List.mem_map_of_mem _ hu)
      have hxs : xs.map (fun u => if u.id = i then tx1 else u) = xs := by
        have h1 : xs.map (fun u => if u.id = i then tx1 else u) = xs.map (fun u => u) :=
          list_map_congr_mem fun u hu => if_neg (htail u hu)
        simpa using h1
      rw [List.map_cons, if_pos hx, hxs, postingSum_cons, postingSum_cons]
      ring
    · rw [List.find?_cons_of_neg _ (by simp [hx])] at hf
      rw [List.map_cons, if_neg hx, postingSum_cons, postingSum_cons, ih hnd.2 hf]
      ring

lemma postingSum_remove {txs : List Transaction} {i : Nat} {tx : Transaction}
    (hnd : (txs.map fun t => t.id).Nodup)
    (hf : txs.find? (fun u => u.id = i) = some tx) (accId : Nat) :
    postingSum (txs.filter fun u => ¬ u.id = i) accId =
      postingSum txs accId - txDelta tx accId := by
  induction txs with
  | nil => simp at hf
  | cons x xs ih =>
    rw [List.map_cons, List.nodup_cons] at hnd
    by_cases hx : x.id = i
    · rw [List.find?_cons_of_pos _ (by simp [hx])] at hf
      obtain rfl : x = tx := Option.some.inj hf
      have htail : ∀ u ∈ xs, ¬ u.id = i := fun u hu h =>
        hnd.1 (by rw [← hx] at h; exact h ▸ List.mem_map_of_mem _ hu)
      rw [List.filter_cons_of_neg (by simp [hx]),
        List.filter_eq_self.mpr (fun u hu => by simp [htail u hu]),
        postingSum_cons]
      ring
    · rw [List.find?_cons_of_neg _ (by simp [hx])] at hf
      rw [List.filter_cons_of_pos (by simp [hx]), postingSum_cons, postingSum_cons,
        ih hnd.2 hf]
      ring

lemma find?_eq_of_mem_nodup {txs : List Transaction} {t : Transaction}
    (hnd : (txs.map fun u => u.id).Nodup) (ht : t ∈ txs) :
    txs.find? (fun u => u.id = t.id) = some t := by
  induction txs with
  | nil => simp at ht
  | cons x xs ih =>
    rw [List.map_cons, List.nodup_cons] at hnd
    rcases List.mem_cons.mp ht with rfl | hmem
    · exact List.find?_cons_of_pos _ (by simp)
    · have hx : ¬ x.id = t.id := fun h => hnd.1 (h ▸ List.mem_map_of_mem _ hmem)
      rw [List.find?_cons_of_neg _ (by simp [hx]), ih hnd.2 hmem]

lemma if_eq_comm {α : Type} {x y : Nat} {a b : α} :
    (if x = y then a else b) = if y = x then a else b := by
  by_cases h : x = y
  · rw [if_pos h, if_pos h.symm]
  · rw [if_neg h, if_neg fun hh => h hh.symm]

lemma txDelta_eq_ifs (t : Transaction) (x : Nat) :
    txDelta t x = (if x = t.debitAccountId then t.amount else 0) -
      (if x = t.creditAccountId then t.amount else 0) := by
  unfold txDelta
  rw [if_eq_comm]
  nth_rewrite 2 [if_eq_comm]
  rfl

/-- Posting a balance pair shifts every stored balance by the point
delta. -/
lemma consistent_shift {st : LedgerState} {f : Nat → Int}
    (hc : ∀ a ∈ st.accounts, a.balance = f a.id) (d c : Nat) (amt : Int) :
    ∀ a ∈ (updateAccountBalances st d c amt).accounts,
      a.balance = f a.id +
        ((if a.id = d then amt else 0) - (if a.id = c then amt else 0)) := by
  intro a ha
  rw [updateAccountBalances_accounts] at ha
  obtain ⟨b, hb, rfl⟩ := List.mem_map.mp ha
  simp only [balAdj]
  rw [hc b hb]
  ring

lemma map_id_replace {txs : List Transaction} {i : Nat} {tx1 : Transaction}
    (h1 : tx1.id = i) :
    ((txs.map fun u => if u.id = i then tx1 else u).map fun t => t.id) =
      txs.map fun t => t.id := by
  rw [List.map_map]
  refine list_map_congr_mem fun u _ => ?_
  dsimp only [Function.comp]
  by_cases h : u.id = i
  · rw [if_pos h, h1, h]
  · rw [if_neg h]

/-- Serving one posting-engine request preserves well-formedness and the
balance invariant. -/
lemma applyOp_preserves (st : LedgerState) (op : PEOp)
    (hwf : WF st) (hc : Consistent st) :
    WF (applyOp st op) ∧ Consistent (applyOp st op) := by
  cases op with
  | create data =>
    simp only [applyOp]
    cases hcr : createTransaction st data with
    | error e => exact ⟨hwf, hc⟩
    | ok p =>
      obtain ⟨tx, st1⟩ := p
      by_cases hex : (findAccount st data.debitAccountId).isNone ∨
          (findAccount st data.creditAccountId).isNone
      · rw [createTransaction, if_pos hex] at hcr
        cases hcr
      · rw [createTransaction, if_neg hex] at hcr
        rw [Except.ok.injEq, Prod.mk.injEq] at hcr
        obtain ⟨h1, h2⟩ := hcr
        subst h1
        subst h2
        constructor
        · constructor
          · show ((st.transactions ++ [newTransaction st data]).map fun t => t.id).Nodup
            rw [List.map_append]
            refine List.Nodup.append hwf.1 (List.nodup_singleton _) ?_
            intro x hx hx1
            simp only [List.map_cons, List.map_nil, List.mem_singleton] at hx1
            obtain ⟨t, ht, rfl⟩ := List.mem_map.mp hx
            exact absurd (hx1 ▸ hwf.2 t ht) (lt_irrefl _)
          · intro t ht
            show t.id < st.nextTxId + 1
            rcases List.mem_append.mp ht with h | h
            · exact Nat.lt_succ_of_lt (hwf.2 t h)
            · rw [List.mem_singleton.mp h]
              exact Nat.lt_succ_self _
        · intro a ha
          have step := consistent_shift (f := fun x => postingSum st.transactions x)
            hc data.debitAccountId data.creditAccountId data.amount a ha
          rw [step]
          show _ = postingSum (st.transactions ++ [newTransaction st data]) a.id
          rw [postingSum_append, postingSum_cons, postingSum_nil, txDelta_eq_ifs]
          show _ = _ + ((if a.id = data.debitAccountId then data.amount else 0) -
            (if a.id = data.creditAccountId then data.amount else 0) + 0)
          ring
  | update i patch =>
    simp only [applyOp]
    cases hu : updateTransaction st i patch with
    | error e => exact ⟨hwf, hc⟩
    | ok p =>
      obtain ⟨tx1, st1⟩ := p
      cases hft : findTransaction st i with
      | none => rw [updateTransaction, hft] at hu; cases hu
      | some tr =>
        rw [updateTransaction, hft] at hu
        rw [Except.ok.injEq, Prod.mk.injEq] at hu
        obtain ⟨h1, h2⟩ := hu
        subst h1
        subst h2
        have hft2 : st.transactions.find? (fun t => t.id = i) = some tr := hft
        have hid : tr.id = i := by simpa using List.find?_some hft2
        have hmem : tr ∈ st.transactions := List.mem_of_find?_eq_some hft2
        have happ_id : (applyPatch tr patch).id = i := hid
        have hbal_tr : (updateBalancePhase st tr patch).transactions =
            st.transactions := by
          unfold updateBalancePhase
          split <;> rfl
        have hbal_next : (updateBalancePhase st tr patch).nextTxId = st.nextTxId := by
          unfold updateBalancePhase
          split <;> rfl
        constructor
        · constructor
          · show ((((updateBalancePhase st tr patch).transactions.map
              fun t => if t.id = i then applyPatch tr patch else t)).map
                fun t => t.id).Nodup
            rw [hbal_tr, map_id_replace happ_id]
            exact hwf.1
          · intro t ht
            show t.id < (updateBalancePhase st tr patch).nextTxId
            rw [hbal_next]
            rw [hbal_tr] at ht
            obtain ⟨u, hu2, rfl⟩ := List.mem_map.mp ht
            by_cases h : u.id = i
            · rw [if_pos h, happ_id, ← hid]
              exact hwf.2 tr hmem
            · rw [if_neg h]
              exact hwf.2 u hu2
        · intro a ha
          show a.balance = postingSum
            ((updateBalancePhase st tr patch).transactions.map
              fun t => if t.id = i then applyPatch tr patch else t) a.id
          rw [hbal_tr, postingSum_replace hwf.1 hft2]
          by_cases htouch : patch.amount.isSome ∨ patch.debitAccountId.isSome ∨
              patch.creditAccountId.isSome
          · have ha2 : a ∈ (updateAccountBalances
                (updateAccountBalances st tr.debitAccountId tr.creditAccountId
                  (-tr.amount))
                (patch.debitAccountId.getD tr.debitAccountId)
                (patch.creditAccountId.getD tr.creditAccountId)
                (patch.amount.getD tr.amount)).accounts := by
              have : (updateBalancePhase st tr patch).accounts = _ :=
                congrArg LedgerState.accounts
                  (show updateBalancePhase st tr patch = _ from by
                    unfold updateBalancePhase
                    rw [if_pos htouch])
              rw [this] at ha
              exact ha
            have step1 := consistent_shift (f := fun x => postingSum st.transactions x)
              hc tr.debitAccountId tr.creditAccountId (-tr.amount)
            have step2 := consistent_shift (f := fun x => postingSum st.transactions x +
              ((if x = tr.debitAccountId then -tr.amount else 0) -
                (if x = tr.creditAccountId then -tr.amount else 0))) step1
              (patch.debitAccountId.getD tr.debitAccountId)
              (patch.creditAccountId.getD tr.creditAccountId)
              (patch.amount.getD tr.amount) a ha2
            rw [step2, txDelta_eq_ifs, txDelta_eq_ifs]
            show _ = _ - ((if a.id = tr.debitAccountId then tr.amount else 0) -
                (if a.id = tr.creditAccountId then tr.amount else 0)) +
              ((if a.id = (applyPatch tr patch).debitAccountId
                  then (applyPatch tr patch).amount else 0) -
                (if a.id = (applyPatch tr patch).creditAccountId
                  then (applyPatch tr patch).amount else 0))
            simp only [applyPatch]
            split_ifs <;> ring
          · have hnone1 : patch.amount = none := by
              cases hpa : patch.amount with
              | none => rfl
              | some v => exact absurd (Or.inl (by rw [hpa]; rfl)) htouch
            have hnone2 : patch.debitAccountId = none := by
              cases hpa : patch.debitAccountId with
              | none => rfl
              | some v => exact absurd (Or.inr (Or.inl (by rw [hpa]; rfl))) htouch
            have hnone3 : patch.creditAccountId = none := by
              cases hpa : patch.creditAccountId with
              | none => rfl
              | some v => exact absurd (Or.inr (Or.inr (by rw [hpa]; rfl))) htouch
            have ha2 : a ∈ st.accounts := by
              have : updateBalancePhase st tr patch = st := by
                unfold updateBalancePhase
                rw [if_neg htouch]
              rw [this] at ha
              exact ha
            have hdelta : txDelta (applyPatch tr patch) a.id = txDelta tr a.id := by
              unfold txDelta applyPatch
              rw [hnone1, hnone2, hnone3]
              rfl
            rw [hdelta, hc a ha2]
            ring
  | delete i =>
    simp only [applyOp]
    cases hdel : deleteTransaction st i with
    | error e => exact ⟨hwf, hc⟩
    | ok st1 =>
      cases hft : findTransaction st i with
      | none => rw [deleteTransaction, hft] at hdel; cases hdel
      | some tr =>
        rw [deleteTransaction, hft] at hdel
        rw [Except.ok.injEq] at hdel
        subst hdel
        have hft2 : st.transactions.find? (fun t => t.id = i) = some tr := hft
        constructor
        · constructor
          · show (((updateAccountBalances st tr.debitAccountId tr.creditAccountId
              (-tr.amount)).transactions.filter fun t => ¬ t.id = i).map
                fun t => t.id).Nodup
            rw [updateAccountBalances_transactions]
            exact ((List.filter_sublist _).map _).nodup hwf.1
          · intro t ht
            show t.id < st.nextTxId
            rw [updateAccountBalances_transactions] at ht
            exact hwf.2 t (List.mem_of_mem_filter ht)
        · intro a ha
          show a.balance = postingSum
            ((updateAccountBalances st tr.debitAccountId tr.creditAccountId
              (-tr.amount)).transactions.filter fun t => ¬ t.id = i) a.id
          rw [updateAccountBalances_transactions, postingSum_remove hwf.1 hft2,
            txDelta_eq_ifs]
          have step := consistent_shift (f := fun x => postingSum st.transactions x)
            hc tr.debitAccountId tr.creditAccountId (-tr.amount) a ha
          rw [step]
          split_ifs <;> ring

/-- Serving any request sequence preserves well-formedness and the balance
invariant. -/
lemma applyOps_preserves (ops : List PEOp) (st : LedgerState)
    (hwf : WF st) (hc : Consistent st) :
    WF (applyOps st ops) ∧ Consistent (applyOps st ops) := by
  induction ops generalizing st with
  | nil => exact ⟨hwf, hc⟩
  | cons op rest ih =>
    obtain ⟨hwf1, hc1⟩ := applyOp_preserves st op hwf hc
    exact ih (applyOp st op) hwf1 hc1

/-- C1: for every finite sequence of posting-engine create/update/delete
requests, started from a well-formed ledger whose account balances each
equal the posting sum of the already-stored transactions, after every
prefix of the sequence each account's stored balance equals the sum of the
amounts of the stored transactions in which it is the debit account minus
the sum over those in which it is the credit account. -/
theorem C1_balance_invariant (st : LedgerState) (ops pre suf : List PEOp)
    (_hops : ops = pre ++ suf) (hwf : WF st) (hc : Consistent st) :
    Consistent (applyOps st pre) :=
  (applyOps_preserves pre st hwf hc).2

/-- A two-account ledger used to instantiate hypotheses of the posting
engine theorems on concrete data. -/
def demoState : LedgerState :=
  { accounts :=
      [{ id := 1, name := "Cash", type := AccountType.asset_bank, balance := 0 },
       { id := 2, name := "Groceries", type := AccountType.expense, balance := 0 }]
    categories := []
    transactions := []
    nextAccountId := 3
    nextCategoryId := 1
    nextTxId := 1 }

/-- A create request against `demoState`. -/
def demoCreate : PEOp :=
  PEOp.create
    { date := JsDate.ymd 2024 0 2
      amount := 5
      description := "coffee"
      debitAccountId := 2
      creditAccountId := 1 }

/-- Witness for C1 at a concrete ledger and request sequence. -/
theorem C1_balance_invariant_witness :
    [demoCreate, demoCreate] = [demoCreate] ++ [demoCreate] ∧ WF demoState ∧
      Consistent demoState ∧ Consistent (applyOps demoState [demoCreate]) :=
  ⟨rfl, by decide, by decide,
    C1_balance_invariant demoState [demoCreate, demoCreate] [demoCreate] [demoCreate]
      rfl (by decide) (by decide)⟩

/-- C4: `bulkUpdate(ids, patch)` writes the patch verbatim onto every row
whose id is listed and touches nothing else: the accounts table — hence
every stored balance — is left exactly as it was, with no balance
recomputation, even when the patch includes amount or account-id fields. -/
theorem C4_bulkUpdate_frame (st : LedgerState) (ids : List Nat) (patch : TxPatch) :
    (bulkUpdateTransactions st ids patch).transactions =
        (st.transactions.map fun t => if t.id ∈ ids then applyPatch t patch else t) ∧
      (bulkUpdateTransactions st ids patch).accounts = st.accounts ∧
      ∀ accId, getAccountBalance (bulkUpdateTransactions st ids patch) accId =
        getAccountBalance st accId :=
  ⟨rfl, rfl, fun accId => getAccountBalance_congr rfl accId⟩

/-- C8: an update whose patch touches none of amount, `debitAccountId`,
`creditAccountId` — in particular a description-only patch — leaves the
accounts table, and hence the stored balances of the debit and credit
accounts, unchanged (whether or not the transaction id exists). -/
theorem C8_update_nonbalance_frame (st : LedgerState) (id : Nat) (patch : TxPatch)
    (h1 : patch.amount = none) (h2 : patch.debitAccountId = none)
    (h3 : patch.creditAccountId = none) :
    (applyOp st (PEOp.update id patch)).accounts = st.accounts ∧
      ∀ accId, getAccountBalance (applyOp st (PEOp.update id patch)) accId =
        getAccountBalance st accId := by
  have htouch : ¬ (patch.amount.isSome = true ∨ patch.debitAccountId.isSome = true ∨
      patch.creditAccountId.isSome = true) := by
    rw [h1, h2, h3]
    simp
  have hacc : (applyOp st (PEOp.update id patch)).accounts = st.accounts := by
    simp only [applyOp]
    cases hu : updateTransaction st id patch with
    | error e => rfl
    | ok p =>
      obtain ⟨tx1, st1⟩ := p
      cases hft : findTransaction st id with
      | none => rw [updateTransaction, hft] at hu; cases hu
      | some tr =>
        rw [updateTransaction, hft] at hu
        rw [Except.ok.injEq, Prod.mk.injEq] at hu
        obtain ⟨hleft, hright⟩ := hu
        subst hright
        show (updateBalancePhase st tr patch).accounts = st.accounts
        rw [updateBalancePhase, if_neg htouch]
  exact ⟨hacc, fun accId => getAccountBalance_congr hacc accId⟩

/-- A ledger with one stored transaction, for the update/delete witnesses. -/
def demoTx : Transaction :=
  { id := 1
    date := JsDate.ymd 2024 0 2
    amount := 30
    description := "groceries"
    status := TransactionStatus.pending
    debitAccountId := 2
    creditAccountId := 1 }

/-- `demoState` after `demoTx` has been posted. -/
def demoStateTx : LedgerState :=
  { accounts :=
      [{ id := 1, name := "Cash", type := AccountType.asset_bank, balance := -30 },
       { id := 2, name := "Groceries", type := AccountType.expense, balance := 30 }]
    categories := []
    transactions := [demoTx]
    nextAccountId := 3
    nextCategoryId := 1
    nextTxId := 2 }

/-- Witness for C8: a description-only patch on a stored transaction. -/
theorem C8_update_nonbalance_frame_witness :
    ({ description := some "weekly groceries" } : TxPatch).amount = none ∧
      (applyOp demoStateTx
        (PEOp.update 1 { description := some "weekly groceries" })).accounts =
          demoStateTx.accounts ∧
      ∀ accId, getAccountBalance
          (applyOp demoStateTx (PEOp.update 1 { description := some "weekly groceries" }))
          accId =
        getAccountBalance demoStateTx accId :=
  ⟨rfl, (C8_update_nonbalance_frame demoStateTx 1 _ rfl rfl rfl).1,
    (C8_update_nonbalance_frame demoStateTx 1 _ rfl rfl rfl).2⟩

/-- C10: `getAccountBalance` on an id matching no stored account returns 0
rather than failing, exactly the value reported for an existing account
whose balance is zero. -/
theorem C10_missing_account_balance_zero (st : LedgerState) (accountId : Nat)
    (h : ∀ a ∈ st.accounts, ¬ a.id = accountId) :
    getAccountBalance st accountId = 0 := by
  have hfind : findAccount st accountId = none := by
    unfold findAccount
    rw [List.find?_eq_none]
    intro a ha
    simp [h a ha]
  unfold getAccountBalance
  rw [hfind]

/-- Witness for C10: account id 99 is absent from `demoState`. -/
theorem C10_missing_account_balance_zero_witness :
    (∀ a ∈ demoState.accounts, ¬ a.id = 99) ∧ getAccountBalance demoState 99 = 0 :=
  ⟨by decide, C10_missing_account_balance_zero demoState 99 (by decide)⟩

/-- A posting request whose debit and credit account are the same existing
account. -/
def c2Data : TxData :=
  { date := JsDate.ymd 2024 0 2
    amount := 25
    description := "self transfer"
    debitAccountId := 1
    creditAccountId := 1 }

/-- C2 counterexample: `TransactionService.createTransaction` — the posting
engine's own `create` — accepts equal debit and credit ids: it succeeds
(no validation error is thrown), a transaction row is inserted, and the
account's balance is unchanged only because the increment and the decrement
cancel.  The equal-ids rejection exists solely in the HTTP route handler. -/
theorem C2_counterexample :
    (createTransaction demoState c2Data).isOk = true ∧
      (match createTransaction demoState c2Data with
        | .ok (_, st1) => st1.transactions.map fun t =>
            (t.debitAccountId, t.creditAccountId, t.amount)
        | .error _ => []) = [(1, 1, 25)] ∧
      (match createTransaction demoState c2Data with
        | .ok (_, st1) => st1.accounts
        | .error _ => []) = demoState.accounts := by
  refine ⟨rfl, rfl, ?_⟩
  show (updateAccountBalances _ 1 1 25).accounts = demoState.accounts
  rw [updateAccountBalances_accounts]
  show demoState.accounts.map (balAdj 1 1 25) = demoState.accounts
  decide

/-- C2 (amended): the equal-accounts check is enforced one layer up, in the
`POST /api/transactions` handler: when the request's `debitAccountId`
equals its `creditAccountId` (and the required fields are present and
truthy, so the earlier required-fields rejection does not fire first), the
handler responds with the validation error "Debit and credit accounts must
be different" before calling the service, so no transaction row is inserted
and no account balance changes. -/
theorem C2_route_validation (st : LedgerState) (data : TxData)
    (heq : data.debitAccountId = data.creditAccountId)
    (hamt : ¬ data.amount = 0) (hdesc : ¬ data.description = "")
    (hid0 : ¬ data.debitAccountId = 0) :
    createTransactionRoute st data =
        .error "Debit and credit accounts must be different" ∧
      applyRouteCreate st data = st := by
  have hc0 : ¬ data.creditAccountId = 0 := heq ▸ hid0
  have hroute : createTransactionRoute st data =
      .error "Debit and credit accounts must be different" := by
    unfold createTransactionRoute
    rw [if_neg (by simp only [not_or]; exact ⟨hamt, hdesc, hid0, hc0⟩), if_pos heq]
  refine ⟨hroute, ?_⟩
  unfold applyRouteCreate
  rw [hroute]

/-- Witness for C2's amended theorem on the concrete equal-ids request. -/
theorem C2_route_validation_witness :
    c2Data.debitAccountId = c2Data.creditAccountId ∧ ¬ c2Data.amount = 0 ∧
      createTransactionRoute demoState c2Data =
        .error "Debit and credit accounts must be different" ∧
      applyRouteCreate demoState c2Data = demoState :=
  ⟨rfl, by decide,
    (C2_route_validation demoState c2Data rfl (by decide) (by decide) (by decide)).1,
    (C2_route_validation demoState c2Data rfl (by decide) (by decide) (by decide)).2⟩

/-- C3 counterexample: the date heuristic on `"2024-03-05"` does not
return a date with year 2024 and the month/day groups swapped (which would
be `new Date(2024, 4, 3)`, i.e. May 3, 2024): the unanchored second regex
(`MM-DD-YY`) matches first, at offset 2, and produces
`new Date(2005, 23, 3)`. -/
theorem C3_counterexample :
    parseDate "2024-03-05" = JsDate.ymd 2005 23 3 ∧
      ¬ parseDate "2024-03-05" = JsDate.ymd 2024 4 3 := by decide

/-- C3 (amended): on `"2024-03-05"` the `YYYY-MM-DD` pattern — and with it
the month/day swap — is never reached: the second pattern `MM-DD-YYYY|YY`,
being unanchored, already matches the substring `"24-03-05"` with capture
groups 24/03/05, so month = 24, day = 3, and two-digit year 5 becomes
2005, giving `new Date(2005, 23, 3)`; JS month normalization makes that
year 2006, month 12 (December), day 3. -/
theorem C3_parseDate_second_pattern :
    parseDate "2024-03-05" = JsDate.ymd 2005 23 3 ∧
      findMatch (matchSepPatternAt '/') "2024-03-05".toList = none ∧
      findMatch (matchSepPatternAt '-') "2024-03-05".toList =
        some (['2', '4'], ['0', '3'], ['0', '5']) ∧
      normalizedYearMonth 2005 23 = (2006, 12) := by decide

/-- Loop invariant of `importLoop`: every processed candidate contributes
exactly one success or one row-indexed error, and errors only ever
accumulate. -/
lemma importLoop_spec (batch : String) (accountId : Nat) (defC defD : Option Nat)
    (cs : List Candidate) :
    ∀ (st : LedgerState) (succ : Nat) (errs : List String),
      (importLoop batch accountId defC defD st cs succ errs).1 +
          ((importLoop batch accountId defC defD st cs succ errs).2.1).length =
        succ + errs.length + cs.length ∧
      ∀ e ∈ (importLoop batch accountId defC defD st cs succ errs).2.1,
        e ∈ errs ∨ ∃ idx msg, e = rowError idx msg := by
  induction cs with
  | nil =>
    intro st succ errs
    exact ⟨by simp [importLoop], fun e he => Or.inl (by simpa [importLoop] using he)⟩
  | cons c rest ih =>
    intro st succ errs
    rcases hr : importRow batch accountId defC defD st c with ⟨res, st3⟩
    cases res with
    | ok st4 =>
      simp only [importLoop, hr]
      obtain ⟨hlen, herr⟩ := ih st4 (succ + 1) errs
      refine ⟨?_, herr⟩
      rw [hlen]
      simp only [List.length_cons]
      omega
    | error msg =>
      simp only [importLoop, hr]
      obtain ⟨hlen, herr⟩ := ih st3 succ (errs ++ [rowError c.originalIndex msg])
      constructor
      · rw [hlen]
        simp only [List.length_append, List.length_cons, List.length_nil]
        omega
      · intro e he
        rcases herr e he with hmem | hrow
        · rcases List.mem_append.mp hmem with h | h
          · exact Or.inl h
          · exact Or.inr ⟨c.originalIndex, msg, List.mem_singleton.mp h⟩
        · exact Or.inr hrow

/-- C5: when the target account exists, `importTransactions` never aborts
on a row failure: it returns `ok`, processes every candidate — each one
yielding either a posted transaction or one collected error, so
`successCount + |errors| = |candidates|` — and every collected error is a
row-indexed message. -/
theorem C5_import_row_errors (st : LedgerState) (candidates : List Candidate)
    (accountId : Nat) (defC defD : Option Nat) (batch : String)
    (htarget : (findAccount st accountId).isSome = true) :
    ∃ succ errs st1,
      importTransactions st candidates accountId defC defD batch =
          .ok (succ, errs, st1) ∧
        succ + errs.length = candidates.length ∧
        ∀ e ∈ errs, ∃ idx msg, e = rowError idx msg := by
  obtain ⟨acct, hacct⟩ := Option.isSome_iff_exists.mp htarget
  have hcond : ¬ (findAccount st accountId).isNone = true := by
    rw [hacct]
    simp
  obtain ⟨hlen, herr⟩ := importLoop_spec batch accountId defC defD candidates st 0 []
  refine ⟨(importLoop batch accountId defC defD st candidates 0 []).1,
    (importLoop batch accountId defC defD st candidates 0 []).2.1,
    (importLoop batch accountId defC defD st candidates 0 []).2.2, ?_, ?_, ?_⟩
  · unfold importTransactions
    rw [if_neg hcond]
  · simpa using hlen
  · intro e he
    rcases herr e he with hmem | hrow
    · exact absurd hmem (List.not_mem_nil e)
    · exact hrow

/-- Witness for C5: a two-candidate batch against `demoState`, whose second
candidate fails (its override debit account 77 does not exist) while the
first succeeds. -/
def c5Candidates : List Candidate :=
  [{ originalIndex := 0
     date := JsDate.ymd 2024 0 3
     amount := 40
     description := "salary"
     category := none
     isDebit := false },
   { originalIndex := 1
     date := JsDate.ymd 2024 0 4
     amount := 15
     description := "lunch"
     category := none
     isDebit := true }]

theorem C5_import_row_errors_witness :
    (findAccount demoState 1).isSome = true ∧
      ∃ succ errs st1,
        importTransactions demoState c5Candidates 1 none (some 77) "import_1" =
            .ok (succ, errs, st1) ∧
          succ + errs.length = c5Candidates.length ∧
          ∀ e ∈ errs, ∃ idx msg, e = rowError idx msg :=
  ⟨rfl, C5_import_row_errors demoState c5Candidates 1 none (some 77)
    "import_1" rfl⟩

deriving instance DecidableEq for Except

/-- The C6 scenario's initial ledger: one target account T (id 1, balance
7) and no account named "Income - Salary" of type income. -/
def c6State : LedgerState :=
  { accounts :=
      [{ id := 1, name := "Checking", type := AccountType.asset_bank, balance := 7 }]
    categories := []
    transactions := []
    nextAccountId := 2
    nextCategoryId := 1
    nextTxId := 1 }

/-- The C6 scenario's single income candidate: amount 100, isDebit false,
category "Salary". -/
def c6Candidate : Candidate :=
  { originalIndex := 0
    date := JsDate.ymd 2024 0 15
    amount := 100
    description := "Paycheck"
    category := some "Salary"
    isDebit := false }

/-- The ledger after executing the C6 preview. -/
def c6Final : LedgerState :=
  { accounts :=
      [{ id := 1, name := "Checking", type := AccountType.asset_bank, balance := 107 },
       { id := 2
         name := "Income - Salary"
         type := AccountType.income
         description := some "Auto-created income account for Salary"
         balance := -100 }]
    categories :=
      [{ id := 1
         name := "Salary"
         type := CategoryType.income
         description := some "Auto-created from import" }]
    transactions :=
      [{ id := 1
         date := JsDate.ymd 2024 0 15
         amount := 100
         description := "Paycheck"
         status := TransactionStatus.pending
         notes := some "Imported from import_1700000000000"
         debitAccountId := 1
         creditAccountId := 2
         categoryId := some 1 }]
    nextAccountId := 3
    nextCategoryId := 2
    nextTxId := 2 }

/-- C6: executing a preview holding exactly one income candidate (amount
100, isDebit false, category "Salary") against existing target account 1
with no default-account overrides, in a ledger with no income account named
"Income - Salary", creates one transaction with debitAccountId 1,
creditAccountId the freshly created "Income - Salary" income account
(id 2), amount 100; the target's balance rises by 100 (7 to 107) and the
new income account's balance falls by 100 (0 to -100). -/
theorem C6_income_import :
    (∀ a ∈ c6State.accounts,
        ¬ (a.name = "Income - Salary" ∧ a.type = AccountType.income)) ∧
      importTransactions c6State [c6Candidate] 1 none none "import_1700000000000" =
        .ok (1, [], c6Final) ∧
      (c6Final.transactions.map fun t =>
        (t.debitAccountId, t.creditAccountId, t.amount)) = [(1, 2, 100)] ∧
      (∃ a ∈ c6Final.accounts, a.id = 2 ∧ a.name = "Income - Salary" ∧
        a.type = AccountType.income ∧ ∀ b ∈ c6State.accounts, ¬ b.id = 2) ∧
      getAccountBalance c6Final 1 = getAccountBalance c6State 1 + 100 ∧
      getAccountBalance c6Final 2 = -100 := by decide

/-- The `create` payload carrying exactly a stored transaction's
parameters. -/
def txDataOf (t : Transaction) : TxData :=
  { date := t.date
    amount := t.amount
    description := t.description
    debitAccountId := t.debitAccountId
    creditAccountId := t.creditAccountId
    categoryId := t.categoryId
    reference := t.reference
    notes := t.notes }

/-- Reversing a posting and re-applying it leaves an account record
unchanged. -/
lemma balAdj_cancel (d c : Nat) (amt : Int) (a : Account) :
    balAdj d c amt (balAdj d c (-amt) a) = a := by
  show ({ a with balance := (a.balance + (if a.id = d then -amt else 0) -
      (if a.id = c then -amt else 0)) + (if a.id = d then amt else 0) -
      (if a.id = c then amt else 0) } : Account) = a
  have hbal : (a.balance + (if a.id = d then -amt else 0) -
      (if a.id = c then -amt else 0)) + (if a.id = d then amt else 0) -
      (if a.id = c then amt else 0) = a.balance := by
    split_ifs <;> ring
  rw [hbal]

/-- C7: for a stored transaction `t` of a well-formed ledger whose two
account references exist, `delete(t.id)` succeeds, re-`create` with
parameters identical to `t`'s succeeds, and both affected accounts end
with exactly the balances they had before the delete. -/
theorem C7_delete_create_roundtrip (st : LedgerState) (t : Transaction)
    (hwf : WF st) (hmem : t ∈ st.transactions)
    (hdeb : (findAccount st t.debitAccountId).isSome = true)
    (hcred : (findAccount st t.creditAccountId).isSome = true) :
    ∃ st1 tx2 st2,
      deleteTransaction st t.id = .ok st1 ∧
        createTransaction st1 (txDataOf t) = .ok (tx2, st2) ∧
        getAccountBalance st2 t.debitAccountId = getAccountBalance st t.debitAccountId ∧
        getAccountBalance st2 t.creditAccountId = getAccountBalance st t.creditAccountId := by
  have hft : findTransaction st t.id = some t := find?_eq_of_mem_nodup hwf.1 hmem
  set stDel : LedgerState :=
    { updateAccountBalances st t.debitAccountId t.creditAccountId (-t.amount) with
      transactions :=
        (updateAccountBalances st t.debitAccountId t.creditAccountId
          (-t.amount)).transactions.filter fun u => ¬ u.id = t.id } with hstDel
  have hdel : deleteTransaction st t.id = .ok stDel := by
    unfold deleteTransaction
    rw [hft, hstDel]
  have haccA : stDel.accounts =
      st.accounts.map (balAdj t.debitAccountId t.creditAccountId (-t.amount)) := by
    rw [hstDel]
    exact updateAccountBalances_accounts st _ _ _
  have hfaA : ∀ x, findAccount stDel x =
      (findAccount st x).map (balAdj t.debitAccountId t.creditAccountId (-t.amount)) := by
    intro x
    show stDel.accounts.find? (fun a => a.id = x) = _
    rw [haccA]
    exact find?_accounts_map
      (g := balAdj t.debitAccountId t.creditAccountId (-t.amount))
      (fun a => rfl) x st.accounts
  obtain ⟨da, hda⟩ := Option.isSome_iff_exists.mp hdeb
  obtain ⟨ca, hca⟩ := Option.isSome_iff_exists.mp hcred
  have hcond : ¬ ((findAccount stDel (txDataOf t).debitAccountId).isNone = true ∨
      (findAccount stDel (txDataOf t).creditAccountId).isNone = true) := by
    show ¬ ((findAccount stDel t.debitAccountId).isNone = true ∨
      (findAccount stDel t.creditAccountId).isNone = true)
    rw [hfaA, hfaA, hda, hca]
    simp
  have hcreate : createTransaction stDel (txDataOf t) = .ok
      (newTransaction stDel (txDataOf t),
        updateAccountBalances
          { stDel with
            transactions := stDel.transactions ++ [newTransaction stDel (txDataOf t)]
            nextTxId := stDel.nextTxId + 1 }
          (txDataOf t).debitAccountId (txDataOf t).creditAccountId
          (txDataOf t).amount) := by
    unfold createTransaction
    rw [if_neg hcond]
  have hacc2 : (updateAccountBalances
      { stDel with
        transactions := stDel.transactions ++ [newTransaction stDel (txDataOf t)]
        nextTxId := stDel.nextTxId + 1 }
      (txDataOf t).debitAccountId (txDataOf t).creditAccountId
      (txDataOf t).amount).accounts = st.accounts := by
    rw [updateAccountBalances_accounts]
    show stDel.accounts.map (balAdj t.debitAccountId t.creditAccountId t.amount) =
      st.accounts
    rw [haccA, List.map_map]
    have h2 : st.accounts.map
        ((balAdj t.debitAccountId t.creditAccountId t.amount) ∘
          (balAdj t.debitAccountId t.creditAccountId (-t.amount))) =
        st.accounts.map (fun a => a) :=
      list_map_congr_mem fun a _ => balAdj_cancel _ _ _ a
    rw [h2]
    simp
  exact ⟨stDel, _, _, hdel, hcreate,
    getAccountBalance_congr hacc2 _, getAccountBalance_congr hacc2 _⟩

/-- Witness for C7 on the one-transaction demo ledger. -/
theorem C7_delete_create_roundtrip_witness :
    WF demoStateTx ∧ demoTx ∈ demoStateTx.transactions ∧
      ∃ st1 tx2 st2,
        deleteTransaction demoStateTx demoTx.id = .ok st1 ∧
          createTransaction st1 (txDataOf demoTx) = .ok (tx2, st2) ∧
          getAccountBalance st2 demoTx.debitAccountId =
            getAccountBalance demoStateTx demoTx.debitAccountId ∧
          getAccountBalance st2 demoTx.creditAccountId =
            getAccountBalance demoStateTx demoTx.creditAccountId :=
  ⟨by decide, by decide,
    C7_delete_create_roundtrip demoStateTx demoTx (by decide) (by decide) rfl rfl⟩

/-- C9: `parseQif` on the single entry
`D12/1/2024\nT-50.00\nPGrocery Store\nLFood\nCX\n^` yields exactly one
record with date "12/1/2024", amount -50.00, description "Grocery Store",
category "Food" and cleared flag "X". -/
theorem C9_parseQif_single_entry :
    parseQif "D12/1/2024\nT-50.00\nPGrocery Store\nLFood\nCX\n^" =
      [{ date := some "12/1/2024"
         amount := some (some (-50))
         description := some "Grocery Store"
         category := some "Food"
         cleared := some "X"
         reference := none }] := by
  have hpf : parseFloat "-50.00" = some (-50) := by
    have h1 : parseFloat "-50.00" =
        some ((-1 : ℚ) * (((50 : Nat) : ℚ) + ((0 : Nat) : ℚ) / (10 : ℚ) ^ (2 : Nat))) :=
      rfl
    refine h1.trans (congrArg some ?_)
    push_cast
    norm_num
  have h2 : parseQif "D12/1/2024\nT-50.00\nPGrocery Store\nLFood\nCX\n^" =
      [{ date := some "12/1/2024"
         amount := some (parseFloat "-50.00")
         description := some "Grocery Store"
         category := some "Food"
         cleared := some "X"
         reference := none }] := rfl
  rw [h2, hpf]
